import Mathlib

/-!
# Verification of the pyRabani image pipeline

Shallow embedding of the pyRabani repository's dataset iterator
(`Models/h5_iterator.py`, `CNN/CNN_training.py`), resize utility
(`Rabani_Generator/plot_rabani.py`) and topological statistics
(`Analysis/image_stats.py`), together with theorems settling the frozen
claims about them.

Conventions: a 2D image is a `List (List α)` of rows; Python/numpy integers
are modelled as `ℕ`/`ℤ`, float arithmetic as exact `ℚ`/`ℝ`; random draws are
universally quantified input streams constrained to the support of the
distribution the code samples from; exceptions are modelled with `Except`.
-/

namespace PyRabani

/-- Optional pixel access: row `i`, column `j`. -/
def pixel? {α : Type} (m : List (List α)) (i j : ℕ) : Option α :=
  (m[i]?).bind fun r => r[j]?

/-!
## `power_resize` (Rabani_Generator/plot_rabani.py, lines 15-24)

```python
def power_resize(image, newsize):
    if image.shape[0] != newsize:
        num_tiles = newsize / image.shape[0]
        assert num_tiles % 1 == 0, "New image must be ^2 larger than original image"
        new_image = np.repeat(np.repeat(image, int(num_tiles), axis=0), int(num_tiles), axis=1)
    else:
        new_image = image
    return new_image
```
The float test `num_tiles % 1 == 0` is modelled as exact divisibility;
`image.shape[0] == 0` makes the Python division raise `ZeroDivisionError`.
-/

def power_resize {α : Type} (img : List (List α)) (newsize : ℕ) :
    Except String (List (List α)) :=
  if img.length = newsize then
    Except.ok img
  else if img.length = 0 then
    Except.error "ZeroDivisionError"
  else if newsize % img.length = 0 then
    Except.ok ((img.flatMap fun r => List.replicate (newsize / img.length) r).map
      fun r => r.flatMap fun x => List.replicate (newsize / img.length) x)
  else
    Except.error "AssertionError: New image must be ^2 larger than original image"

/-!
## `flip` (Models/h5_iterator.py, lines 186-190)

```python
def flip(self, batch_x, axis):
    augment_inds_vflip = np.random.choice(self.batch_size, size=(self.batch_size,), replace=False)
    batch_x[augment_inds_vflip, :, :, 0] = np.flip(batch_x[augment_inds_vflip, :, :, 0], axis=axis)
    return batch_x
```

The index draw is a permutation of `range(batch_size)` (sampling
`batch_size` values without replacement); it is modelled as an input list
`perm`.  The numpy statement gathers the selected images from the original
batch, flips each one along the image axis (`axis=1` flips row order,
`axis=2` reverses each row), and scatters the results back; the scatter is
modelled write-by-write, each write taking its value from the original
batch (the indices produced by `np.random.choice` are always in range).
-/

def flipImage {α : Type} (axis1 : Bool) (img : List (List α)) : List (List α) :=
  if axis1 then img.reverse else img.map List.reverse

def applyFlips {α : Type} (axis1 : Bool) (orig : List (List (List α))) :
    List ℕ → List (List (List α)) → List (List (List α))
  | [], b => b
  | p :: rest, b =>
    applyFlips axis1 orig rest
      (match orig[p]? with
       | some img => b.set p (flipImage axis1 img)
       | none => b)

def flip {α : Type} (axis1 : Bool) (perm : List ℕ) (batch : List (List (List α))) :
    List (List (List α)) :=
  applyFlips axis1 batch perm batch

/-!
## `speckle_noise` (Models/h5_iterator.py, lines 207-233)

```python
@staticmethod
def speckle_noise(batch_x, perc_noise, perc_std, randomness="elementwise", num_uniques=None, scaling=True):
    if randomness == "elementwise":
        ...build bernoulli rand_mask per pixel...
    elif randomness == "batchwise":
        ...build rand_mask from uniform draws...
    else:
        raise ValueError(...)
    if not num_uniques:
        num_uniques = len(np.unique(batch_x))
    if num_uniques > 1:     # Ignore if array is single-valued
        rand_arr = np.random.randint(0, num_uniques - 1, size=batch_x.shape)
        if scaling:
            rand_arr *= (num_uniques - 1)
        batch_x[rand_mask == 1] = rand_arr[rand_mask == 1]
    return batch_x
```

A batch is a list of 2D images (the trailing channel axis of the numpy
array is dropped).  The stochastic Bernoulli mask is modelled as an input
predicate `mask b i j` (both the elementwise and the batchwise path produce
some 0/1 mask; `perc_noise`/`perc_std` only shape its distribution) and the
`np.random.randint(0, num_uniques - 1, ...)` array as an input stream
`randArr`, constrained in theorems to the support `randArr b i j < num_uniques - 1`
of that call.  `if not num_uniques` is Python falsy: `None` and `0` both
recompute the distinct-value count.
-/

def distinctCount (batch : List (List (List ℕ))) : ℕ :=
  batch.flatten.flatten.dedup.length

def speckle_noise (mask : ℕ → ℕ → ℕ → Bool) (randArr : ℕ → ℕ → ℕ → ℕ)
    (batch : List (List (List ℕ))) (randomness : String) (numUniques : Option ℕ)
    (scaling : Bool) : Except String (List (List (List ℕ))) :=
  if randomness = "elementwise" ∨ randomness = "batchwise" then
    let n : ℕ :=
      match numUniques with
      | none => distinctCount batch
      | some k => if k = 0 then distinctCount batch else k
    if n > 1 then
      Except.ok (batch.mapIdx fun b img =>
        img.mapIdx fun i row =>
          row.mapIdx fun j px =>
            if mask b i j then
              (if scaling then randArr b i j * (n - 1) else randArr b i j)
            else px)
    else
      Except.ok batch
  else
    Except.error "randomness must be one of [elementwise, batchwise]"

/-- Optional access to pixel `(i, j)` of image `b` of a batch. -/
def pixel3? (batch : List (List (List ℕ))) (b i j : ℕ) : Option ℕ :=
  (batch[b]?).bind fun img => (img[i]?).bind fun r => r[j]?

/-!
## `_patch_binarisation` (CNN/CNN_training.py, lines 224-246)

```python
@staticmethod
def _patch_binarisation(batch_x):
    """Finds the least common level in each image in the batch, and replaces it
    weighted by the other levels"""
    for i in range(len(batch_x)):
        level_vals, counts = np.unique(batch_x[i, :, :, 0], return_counts=True)
        level_inds = np.arange(3)
        least_common_ind = np.argmin(counts)
        least_common_val = level_vals[least_common_ind]
        other_vals = np.delete(level_vals, least_common_ind)
        other_inds = np.delete(level_inds, least_common_ind)
        prob_other_levels = counts[other_inds]/np.sum(counts[other_inds])
        replacement_inds = np.argwhere(batch_x[i, :, :, 0] == least_common_val)
        replacement_vals = np.random.choice(other_vals, size=(len(replacement_inds),), p=prob_other_levels)
        batch_x[i, replacement_inds[:, 0], replacement_inds[:, 0], 0] = replacement_vals
    return batch_x
```

Note the final write: `replacement_inds[:, 0]` — the ROW coordinate of each
least-common pixel — is used for BOTH spatial axes, so the replacement
values land on diagonal positions `(r, r)` instead of the least-common
pixels `(r, c)`.  (`Models/h5_iterator.py` lines 235-244 holds a function of
the same name that delegates to `remove_least_common_level` from
`Models/utils`, a module not present in the source tree.)

`np.unique` returns the sorted distinct values with their counts;
`np.argmin` returns the first index of the minimum; `np.argwhere` lists the
coordinates of matching pixels in row-major order; the weighted
`np.random.choice(other_vals, p=prob_other_levels)` draw is modelled by the
input stream `draw`, whose support is `other_vals` (every remaining level
has a positive count, hence positive probability).
-/

def insertSorted (x : ℕ) : List ℕ → List ℕ
  | [] => [x]
  | y :: ys => if x ≤ y then x :: y :: ys else y :: insertSorted x ys

def sortAsc (l : List ℕ) : List ℕ :=
  l.foldr insertSorted []

/-- The sorted distinct values of an image (`np.unique`). -/
def uniqueVals (img : List (List ℕ)) : List ℕ :=
  sortAsc img.flatten.dedup

/-- The counts paired with `uniqueVals` (`np.unique(..., return_counts=True)`). -/
def uniqueCounts (img : List (List ℕ)) : List ℕ :=
  (uniqueVals img).map fun v => img.flatten.count v

/-- First index of the minimum (`np.argmin`). -/
def argminIdx (l : List ℕ) : ℕ :=
  l.indexOf (l.foldr min (l.headD 0))

/-- Row-major coordinates of the pixels holding value `v` (`np.argwhere`). -/
def coordsOf (img : List (List ℕ)) (v : ℕ) : List (ℕ × ℕ) :=
  (img.mapIdx fun r row =>
    (row.mapIdx fun c px => if px = v then some (r, c) else none).filterMap id).flatten

def setPix (img : List (List ℕ)) (r c v : ℕ) : List (List ℕ) :=
  img.mapIdx fun i row => if i = r then row.mapIdx (fun j x => if j = c then v else x) else row

/-- `np.delete(level_vals, least_common_ind)`: the levels the least-common
level is supposed to be replaced by. -/
def otherVals (img : List (List ℕ)) : List ℕ :=
  (uniqueVals img).eraseIdx (argminIdx (uniqueCounts img))

/-- Loop body of `_patch_binarisation` for one image, including the faithful
diagonal write `batch_x[i, replacement_inds[:, 0], replacement_inds[:, 0], 0]`. -/
def patch_binarisation_image (draw : ℕ → ℕ) (img : List (List ℕ)) : List (List ℕ) :=
  let vals := uniqueVals img
  let counts := uniqueCounts img
  let lcv := vals.getD (argminIdx counts) 0
  let inds := coordsOf img lcv
  inds.enum.foldl (fun im kp => setPix im kp.2.1 kp.2.1 (draw kp.1)) img

/-- `_patch_binarisation` over a batch. -/
def patch_binarisation (draws : ℕ → ℕ → ℕ) (batch : List (List (List ℕ))) :
    List (List (List ℕ)) :=
  batch.mapIdx fun i img => patch_binarisation_image (draws i) img

/-!
## `calculate_stats` (Analysis/image_stats.py, lines 11-35)

```python
def calculate_stats(img, image_res, substrate_num=0, liquid_num=1, nano_num=2):
    region = (measure.regionprops((img != 0) + 1)[0])
    if int(mode(img, axis=None).mode) == liquid_num:
        if np.sum(img == substrate_num) / image_res ** 2 >= 0.02:
            cat = "hole"
        else:
            cat = "liquid"
    elif -0.00025 <= region["euler_number"] / np.sum(img == nano_num):
        cat = "cellular"
    elif -0.01 <= region["euler_number"] / np.sum(img == nano_num) < -0.001:
        cat = "labyrinth"
    elif region["euler_number"] / np.sum(img == nano_num) <= -0.03:
        cat = "island"
    else:
        cat = "none"
    return region, cat
```

`(img != 0) + 1` is a label image with value 1 on the zero pixels and 2 on
the nonzero pixels; `regionprops` lists regions in ascending label order, so
`[0]` is the region of the ZERO pixels whenever the image has any, and the
region of all pixels otherwise.  `scipy.stats.mode` returns the smallest
most-frequent value.  `region["euler_number"]` is the Euler characteristic
of the region mask under full (8-)connectivity, which skimage computes by
Gray's bit-quad counting; float thresholds become exact rationals
(`0.02 = 1/50`, `0.00025 = 1/4000`, etc.).
-/

/-- The dominant (statistical mode) pixel value: the smallest value of
maximal count (`scipy.stats.mode` over the flattened image). -/
def modeVal (img : List (List ℕ)) : ℕ :=
  let flat := img.flatten
  (uniqueVals img).foldl
    (fun best v => if flat.count v > flat.count best then v else best)
    ((uniqueVals img).headD 0)

/-- The mask of the first region of `regionprops((img != 0) + 1)`: the zero
pixels if any exist (label 1), otherwise all pixels (label 2). -/
def statsRegionMask (img : List (List ℕ)) : List (List Bool) :=
  if 0 ∈ img.flatten then img.map fun row => row.map fun v => v == 0
  else img.map fun row => row.map fun v => v != 0

def maxWidth {α : Type} (m : List (List α)) : ℕ :=
  m.foldr (fun r a => max r.length a) 0

def cellB (m : List (List Bool)) (i j : ℕ) : Bool :=
  (pixel? m i j).getD false

/-- The 2×2 pixel quad whose lower-right corner is padded coordinate
`(i, j)`; coordinates off the image read as background. -/
def quadAt (m : List (List Bool)) (i j : ℕ) : Bool × Bool × Bool × Bool :=
  (if i = 0 ∨ j = 0 then false else cellB m (i - 1) (j - 1),
   if i = 0 then false else cellB m (i - 1) j,
   if j = 0 then false else cellB m i (j - 1),
   cellB m i j)

def quadCount (q : Bool × Bool × Bool × Bool) : ℕ :=
  (cond q.1 1 0) + (cond q.2.1 1 0) + (cond q.2.2.1 1 0) + (cond q.2.2.2 1 0)

def quadDiag (q : Bool × Bool × Bool × Bool) : Bool :=
  (q.1 && q.2.2.2 && !q.2.1 && !q.2.2.1) || (q.2.1 && q.2.2.1 && !q.1 && !q.2.2.2)

/-- Euler number of a binary mask under 8-connectivity by Gray's bit-quad
formula `(Q1 - Q3 - 2 * QD) / 4` (what `skimage` computes for a 2D region
with its default `connectivity = 2`). -/
def eulerNumber (m : List (List Bool)) : ℤ :=
  let quads := (List.range (m.length + 1)).flatMap fun i =>
    (List.range (maxWidth m + 1)).map fun j => quadAt m i j
  let q1 := quads.countP fun q => quadCount q == 1
  let q3 := quads.countP fun q => quadCount q == 3
  let qd := quads.countP quadDiag
  ((q1 : ℤ) - (q3 : ℤ) - 2 * (qd : ℤ)) / 4

/-- `region["euler_number"] / np.sum(img == nano_num)` as an exact rational. -/
def ratioR (img : List (List ℕ)) : ℚ :=
  (eulerNumber (statsRegionMask img) : ℚ) / (img.flatten.count 2 : ℚ)

def calculate_stats (img : List (List ℕ)) (image_res : ℕ) :
    List (List Bool) × String :=
  (statsRegionMask img,
    if modeVal img = 1 then
      if (1 : ℚ) / 50 ≤ (img.flatten.count 0 : ℚ) / ((image_res : ℚ) ^ 2) then "hole"
      else "liquid"
    else if -(1 : ℚ) / 4000 ≤ ratioR img then "cellular"
    else if -(1 : ℚ) / 100 ≤ ratioR img ∧ ratioR img < -(1 : ℚ) / 1000 then "labyrinth"
    else if ratioR img ≤ -(3 : ℚ) / 100 then "island"
    else "none")

/-- The claim's band classification, written exactly as the claim states it:
`R ≥ -0.00025 → cellular`; `-0.01 ≤ R < -0.001 → labyrinth`;
`R ≤ -0.03 → island`; every other `R`, including the two open gaps
`(-0.001, -0.00025)` and `(-0.03, -0.01)`, gives `none`. -/
def claimBands (r : ℚ) : String :=
  if -(1 : ℚ) / 4000 ≤ r then "cellular"
  else if -(1 : ℚ) / 100 ≤ r ∧ r < -(1 : ℚ) / 1000 then "labyrinth"
  else if r ≤ -(3 : ℚ) / 100 then "island"
  else "none"

/-!
## `calculate_normalised_stats` (Analysis/image_stats.py, lines 38-65)

```python
def calculate_normalised_stats(img):
    assert len(np.unique(img)) == 2, "Input image must be binary"
    img_close = closing(img, square(3))
    img_close_inv = np.abs(1 - img_close)
    label_img = label(img_close)
    label_img_inv = label(img_close_inv)
    H0 = label_img.max()
    H1 = label_img_inv.max()
    if H0 > H1:
        tot_particle_area = np.sum(label_img > 0)
        average_particle_size = tot_particle_area / H0
    else:
        tot_particle_area = np.sum(label_img_inv > 0)
        average_particle_size = tot_particle_area / H1
    tot_perimeter = regionprops(img_close_inv.astype(int))[0]["perimeter"]
    SIA = tot_particle_area / np.size(label_img)
    SIP = tot_perimeter / (H0 * np.sqrt(average_particle_size))
    SIE = H0 / H1
    return SIA, SIP, SIE
```

Embedding notes.  `closing(img, square(3))` is greyscale dilation followed by
erosion with a 3x3 window; with scipy reflect-mode border handling this is
the max/min over the in-bounds 3x3 neighbourhood.  `label` (skimage default
connectivity = 2, i.e. 8-connectivity, background 0) labels maximal
connected regions of equal nonzero value; only the component COUNT
(`label(...).max()`) is consumed, modelled by `componentCount`, which runs
synchronous minimum-id propagation for as many rounds as there are pixels
(enough for any component diameter) and counts the distinct stabilised ids.
`regionprops(img_close_inv.astype(int))[0]` raises `IndexError` when the
array has no nonzero value (no region); otherwise it is the region of the
smallest positive value, cropped to its bounding box, and its `perimeter`
is skimage perimeter: `binary_erosion` with the 4-connected cross and
`border_value=0`, the border image convolved with
`[[10,2,10],[2,1,2],[10,2,10]]` (`cval=0`), and the configuration histogram
dotted with weights 1, sqrt 2 and (1+sqrt 2)/2 - hence the real-valued
result type.
-/

/-- Pixel access at possibly-negative coordinates (off-image reads `none`). -/
def pixelZ? {a : Type} (m : List (List a)) (i j : ℤ) : Option a :=
  if i < 0 ∨ j < 0 then none else pixel? m i.toNat j.toNat

def nbrs9 : List (ℤ × ℤ) :=
  [(-1, -1), (-1, 0), (-1, 1), (0, -1), (0, 0), (0, 1), (1, -1), (1, 0), (1, 1)]

def nbrs8 : List (ℤ × ℤ) :=
  [(-1, -1), (-1, 0), (-1, 1), (0, -1), (0, 1), (1, -1), (1, 0), (1, 1)]

/-- The in-bounds values of the 3x3 neighbourhood of `(i, j)`. -/
def nbrVals (m : List (List ℕ)) (i j : ℕ) : List ℕ :=
  nbrs9.filterMap fun d => pixelZ? m ((i : ℤ) + d.1) ((j : ℤ) + d.2)

def dilate3 (m : List (List ℕ)) : List (List ℕ) :=
  m.mapIdx fun i row => row.mapIdx fun j _ => ((nbrVals m i j).max?).getD 0

def erode3 (m : List (List ℕ)) : List (List ℕ) :=
  m.mapIdx fun i row => row.mapIdx fun j _ => ((nbrVals m i j).min?).getD 0

/-- `closing(img, square(3))`. -/
def closing3 (m : List (List ℕ)) : List (List ℕ) :=
  erode3 (dilate3 m)

/-- `np.abs(1 - img_close)`. -/
def invOf (m : List (List ℕ)) : List (List ℕ) :=
  m.map fun row => row.map fun v => ((1 : ℤ) - (v : ℤ)).natAbs

/-- Initial labels for minimum-propagation: every nonzero pixel starts with
a unique id (its row-major position), background pixels carry none. -/
def initIds (m : List (List ℕ)) : List (List (Option ℕ)) :=
  m.mapIdx fun i row => row.mapIdx fun j v =>
    if v = 0 then none else some (i * (maxWidth m + 1) + j)

def idAtZ (ids : List (List (Option ℕ))) (i j : ℤ) : Option ℕ :=
  ((pixelZ? ids i j).getD none)

/-- One round of synchronous minimum-id propagation: each nonzero pixel
takes the least id among itself and its equal-valued 8-neighbours. -/
def stepIds (m : List (List ℕ)) (ids : List (List (Option ℕ))) :
    List (List (Option ℕ)) :=
  m.mapIdx fun i row => row.mapIdx fun j v =>
    if v = 0 then none
    else
      let own := ((pixel? ids i j).getD none).toList
      let nb := nbrs8.filterMap fun d =>
        match pixelZ? m ((i : ℤ) + d.1) ((j : ℤ) + d.2) with
        | some w => if w = v then idAtZ ids ((i : ℤ) + d.1) ((j : ℤ) + d.2) else none
        | none => none
      some (((own ++ nb).min?).getD (i * (maxWidth m + 1) + j))

def iterIds (m : List (List ℕ)) : ℕ → List (List (Option ℕ))
  | 0 => initIds m
  | t + 1 => stepIds m (iterIds m t)

/-- `label(m).max()`: the number of connected components of equal-valued
nonzero pixels under 8-connectivity. -/
def componentCount (m : List (List ℕ)) : ℕ :=
  ((iterIds m m.flatten.length).flatten.filterMap id).dedup.length

/-- Sorted distinct positive values of an image (the labels `regionprops`
iterates over when handed the raw integer image). -/
def positiveVals (m : List (List ℕ)) : List ℕ :=
  sortAsc (m.flatten.filter fun v => v != 0).dedup

/-- The mask of `regionprops(m)[0]`: the pixels holding the smallest positive
value, cropped to their bounding box; `none` when the array has no positive
value (`regionprops` returns an empty list and `[0]` raises `IndexError`). -/
def firstRegionMask (m : List (List ℕ)) : Option (List (List Bool)) :=
  match positiveVals m with
  | [] => none
  | v :: _ =>
    let coords := coordsOf m v
    let minR := ((coords.map Prod.fst).min?).getD 0
    let maxR := ((coords.map Prod.fst).max?).getD 0
    let minC := ((coords.map Prod.snd).min?).getD 0
    let maxC := ((coords.map Prod.snd).max?).getD 0
    some ((List.range (maxR - minR + 1)).map fun di =>
      (List.range (maxC - minC + 1)).map fun dj =>
        decide (pixel? m (minR + di) (minC + dj) = some v))

/-- `ndi.binary_erosion` with the 4-connected cross and `border_value=0`. -/
def erode4 (mask : List (List Bool)) : List (List Bool) :=
  mask.mapIdx fun i row => row.mapIdx fun j v =>
    v && ((pixelZ? mask ((i : ℤ) - 1) (j : ℤ)).getD false)
      && ((pixelZ? mask ((i : ℤ) + 1) (j : ℤ)).getD false)
      && ((pixelZ? mask (i : ℤ) ((j : ℤ) - 1)).getD false)
      && ((pixelZ? mask (i : ℤ) ((j : ℤ) + 1)).getD false)

/-- `border_image = image - eroded_image` for a binary mask. -/
def borderImage (mask : List (List Bool)) : List (List Bool) :=
  mask.mapIdx fun i row => row.mapIdx fun j v =>
    v && !((pixel? (erode4 mask) i j).getD false)

def convKernel : List (ℤ × ℤ × ℕ) :=
  [(-1, -1, 10), (-1, 0, 2), (-1, 1, 10), (0, -1, 2), (0, 0, 1), (0, 1, 2),
   (1, -1, 10), (1, 0, 2), (1, 1, 10)]

/-- `ndi.convolve(border_image, [[10,2,10],[2,1,2],[10,2,10]], cval=0)`. -/
def convVal (b : List (List Bool)) (i j : ℕ) : ℕ :=
  (convKernel.map fun d =>
    if (pixelZ? b ((i : ℤ) + d.1) ((j : ℤ) + d.2.1)).getD false then d.2.2 else 0).sum

/-- skimage perimeter weights: configurations 5, 7, 15, 17, 25, 27 weigh 1;
21, 33 weigh sqrt 2; 13, 23 weigh (1 + sqrt 2)/2. -/
noncomputable def perimeterWeight (c : ℕ) : ℝ :=
  if c = 5 ∨ c = 7 ∨ c = 15 ∨ c = 17 ∨ c = 25 ∨ c = 27 then 1
  else if c = 21 ∨ c = 33 then Real.sqrt 2
  else if c = 13 ∨ c = 23 then (1 + Real.sqrt 2) / 2
  else 0

/-- `regionprops(...)["perimeter"]` of a binary region mask. -/
noncomputable def perimeterOf (mask : List (List Bool)) : ℝ :=
  ((List.range mask.length).flatMap fun i =>
    (List.range (maxWidth mask)).map fun j =>
      perimeterWeight (convVal (borderImage mask) i j)).sum

inductive StatErr where
  | assertionError
  | indexError
deriving DecidableEq

noncomputable def calculate_normalised_stats (img : List (List ℕ)) :
    Except StatErr (ℝ × ℝ × ℝ) :=
  if img.flatten.dedup.length ≠ 2 then Except.error StatErr.assertionError
  else
    let imgClose := closing3 img
    let imgCloseInv := invOf imgClose
    let H0 := componentCount imgClose
    let H1 := componentCount imgCloseInv
    let totParticleArea :=
      if H0 > H1 then imgClose.flatten.countP (fun v => v != 0)
      else imgCloseInv.flatten.countP (fun v => v != 0)
    let averageParticleSize : ℝ :=
      (totParticleArea : ℝ) / (if H0 > H1 then (H0 : ℝ) else (H1 : ℝ))
    match firstRegionMask imgCloseInv with
    | none => Except.error StatErr.indexError
    | some regionMask =>
      let totPerimeter := perimeterOf regionMask
      Except.ok ((totParticleArea : ℝ) / (imgClose.flatten.length : ℝ),
        totPerimeter / ((H0 : ℝ) * Real.sqrt averageParticleSize),
        (H0 : ℝ) / (H1 : ℝ))

/-!
## `h5RabaniDataGenerator` (Models/h5_iterator.py)

State machine for the dataset cursor / batch assembler.  A directory of h5
records is a list of `GenRecord`s (image plus category attribute; the
precondition that the directory holds only valid records is the spec's own).
`__len__` shells out to `find dir -maxdepth 1 | wc -l` and subtracts 1 for
the directory itself, i.e. (number of entries) // batch_size.  The file
iterator `os.scandir` is modelled by the cursor `filePos` into `files`;
`__reset_file_iterator__` zeroes it together with `_batches_counter`.

`__getitem__(idx)` (lines 123-170) reads `batch_size` records (a
`StopIteration` surfaces if the scan is exhausted; a missing category raises
`ValueError`), resizes each image (`resizeFn`), builds the one-hot label
rows, and, in validation mode, writes the batch into the accumulators
`x_true` / `y_true` at the slice `[counter*B, (counter+1)*B)` (the source
performs this write inside the per-record loop; the final iteration writes
the completed batch, which is the observable result).  Training-mode
augmentation, forced binarisation and the autoencoder speckle call are the
opaque batch transforms `augmentFn` / `patchFn` / `noiseFn` (their internal
randomness is part of the functions, i.e. of the generator's random state).
After incrementing the counter the iterator is rewound mid-stream for
non-training generators once the declared batch count is reached; then the
classifier branch performs a SECOND `y_true` write at the slice of the
POST-increment (possibly reset) counter before returning.
-/

structure GenRecord (α : Type) where
  image : α
  category : String
deriving DecidableEq

structure GenState (α : Type) where
  files : List (GenRecord α)
  catList : List String
  batchSize : ℕ
  networkClassifier : Bool
  isTrainingSet : Bool
  isValidationSet : Bool
  forceBinarisation : Bool
  filePos : ℕ
  batchesCounter : ℕ
  xTrue : List α
  yTrue : List (List ℕ)
  classWeightsDict : Option (List ℚ)
deriving DecidableEq

/-- `__len__`: directory entry count floor-divided by the batch size. -/
def genLen {α : Type} (s : GenState α) : ℕ :=
  s.files.length / s.batchSize

/-- `__reset_file_iterator__`. -/
def resetFileIterator {α : Type} (s : GenState α) : GenState α :=
  { s with filePos := 0, batchesCounter := 0 }

/-- `batch_size` successive `self._file_iterator.__next__()` calls starting
at the cursor; `none` models the `StopIteration` raised when the directory
scan is exhausted mid-batch. -/
def readRecords {α : Type} (files : List (GenRecord α)) (pos n : ℕ) :
    Option (List (GenRecord α)) :=
  if pos + n ≤ files.length then some ((files.drop pos).take n) else none

/-- One-hot row of length `n` with bit `idx` set. -/
def oneHot (n idx : ℕ) : List ℕ :=
  (List.range n).map fun k => if k = idx then 1 else 0

/-- `self.original_categories_list.index(category)`; `none` models the
`ValueError` raised for a category absent from the configured list. -/
def catIndex? (catList : List String) (c : String) : Option ℕ :=
  if c ∈ catList then some (catList.indexOf c) else none

def oneHots? {α : Type} (catList : List String) (recs : List (GenRecord α)) :
    Option (List (List ℕ)) :=
  recs.mapM fun r => (catIndex? catList r.category).map (oneHot catList.length)

/-- numpy slice assignment `buf[start : start + vals.length] = vals`
(positions `start ≤ i < start + vals.length` take `vals`, the rest keep
their value; the generator only ever writes slices that fit the buffer). -/
def writeSlice {β : Type} (buf : List β) (start : ℕ) (vals : List β) : List β :=
  buf.take start ++ vals.take (buf.length - start) ++ buf.drop (start + vals.length)

inductive GenErr where
  | stopIteration
  | valueError
deriving DecidableEq

/-- `__getitem__` (Models/h5_iterator.py, lines 123-170).  Returns the
updated generator state plus the returned pair: `Sum.inl (batch_x, batch_y)`
for the classifier branch, `Sum.inr (noisy_x, batch_x)` for the autoencoder
branch.  The `idx` argument is taken, as in the source, and never used. -/
def getItem {α : Type} (resizeFn : α → α) (augmentFn patchFn noiseFn : List α → List α)
    (s : GenState α) (idx : ℕ) :
    Except GenErr (GenState α × ((List α × List (List ℕ)) ⊕ (List α × List α))) :=
  match readRecords s.files s.filePos s.batchSize with
  | none => Except.error GenErr.stopIteration
  | some recs =>
    match oneHots? s.catList recs with
    | none => Except.error GenErr.valueError
    | some batchY =>
      let batchX := recs.map fun r => resizeFn r.image
      let s1 :=
        if s.isValidationSet then
          { s with
            xTrue := writeSlice s.xTrue (s.batchesCounter * s.batchSize) batchX,
            yTrue := writeSlice s.yTrue (s.batchesCounter * s.batchSize) batchY }
        else s
      let batchX1 := if s.isTrainingSet then augmentFn batchX else batchX
      let batchX2 := if s.forceBinarisation then patchFn batchX1 else batchX1
      let s2 := { s1 with
        filePos := s1.filePos + s.batchSize,
        batchesCounter := s1.batchesCounter + 1 }
      let s3 :=
        if s2.batchesCounter ≥ genLen s2 ∧ s2.isTrainingSet = false then
          resetFileIterator s2
        else s2
      if s.networkClassifier then
        let s4 :=
          if s3.isValidationSet then
            { s3 with
              yTrue := writeSlice s3.yTrue (s3.batchesCounter * s3.batchSize) batchY }
          else s3
        Except.ok (s4, Sum.inl (batchX2, batchY))
      else
        let noisy := noiseFn batchX2
        let s4 := if s3.isValidationSet then { s3 with xTrue := patchFn s3.xTrue } else s3
        Except.ok (s4, Sum.inr (noisy, batchX2))

/-- `sklearn.class_weight.compute_class_weight("balanced", arange(n_cats), y)`
on success: `len(y) / (n_cats * count_c)` per class. -/
def balancedWeights (nCats : ℕ) (inds : List ℕ) : List ℚ :=
  (List.range nCats).map fun c => (inds.length : ℚ) / ((nCats : ℚ) * (inds.count c : ℚ))

/-- `_get_class_weights` (Models/h5_iterator.py, lines 80-101): reset the
iterator; scan `min(len()*batch_size, 50000)` records when training, else
`len()*batch_size` (skipping the scan entirely when the validation flag is
already set); look up each record's category index (`ValueError` if absent);
feed the indices to `compute_class_weight("balanced", arange(n_cats), y)`,
which raises `ValueError` when a requested class is absent from `y`; finally
reset the iterator again.  The returned `ℕ` is the number of records read
from the directory. -/
def getClassWeights {α : Type} (s : GenState α) : Except GenErr (GenState α × ℕ) :=
  let s0 := resetFileIterator s
  let scanLen :=
    if s0.isTrainingSet then min (genLen s0 * s0.batchSize) 50000
    else genLen s0 * s0.batchSize
  if s0.isValidationSet then
    Except.ok (resetFileIterator s0, 0)
  else if scanLen ≤ s0.files.length then
    match (s0.files.take scanLen).mapM (fun r => catIndex? s0.catList r.category) with
    | none => Except.error GenErr.valueError
    | some inds =>
      if (List.range s0.catList.length).all (fun c => decide (0 < inds.count c)) then
        Except.ok (resetFileIterator
          { s0 with classWeightsDict := some (balancedWeights s0.catList.length inds) },
          scanLen)
      else Except.error GenErr.valueError
  else Except.error GenErr.stopIteration

def cwState : GenState ℕ :=
  { files := [⟨10, "a"⟩, ⟨20, "b"⟩, ⟨30, "a"⟩, ⟨40, "b"⟩],
    catList := ["a", "b"], batchSize := 2, networkClassifier := true,
    isTrainingSet := false, isValidationSet := false, forceBinarisation := true,
    filePos := 3, batchesCounter := 1, xTrue := [], yTrue := [],
    classWeightsDict := none }

def cwStateAfter : GenState ℕ :=
  { cwState with
    filePos := 0
    batchesCounter := 0
    classWeightsDict := some (balancedWeights 2 [0, 1, 0, 1]) }

/-!
## C1 scenario: a full validation pass over 256 records with batch_size 64

Classifier network, `is_train=False`, `is_validation_set=True`,
`imsize` equal to the native resolution (so `resize_image` is the identity,
cf. `power_resize`), records all valid.  Record `r` carries image value
`r + 1` and category `"a"` for `r < 192`, `"b"` for `r ≥ 192`; the
accumulators start as the `np.zeros` buffers of `__init__`.
-/
def c1Files : List (GenRecord ℕ) :=
  (List.range 256).map fun r => ⟨r + 1, if r < 192 then "a" else "b"⟩

def c1State : GenState ℕ :=
  { files := c1Files
    catList := ["a", "b"]
    batchSize := 64
    networkClassifier := true
    isTrainingSet := false
    isValidationSet := true
    forceBinarisation := true
    filePos := 0
    batchesCounter := 0
    xTrue := List.replicate 256 0
    yTrue := List.replicate 256 [0, 0]
    classWeightsDict := none }

/-- One `__getitem__` call, keeping only the state (transforms are the
identity: validation mode applies no augmentation and the patch transform
does not affect the accumulator contents recorded before it runs). -/
def stepState (s : GenState ℕ) : Except GenErr (GenState ℕ) :=
  match getItem id id id id s 0 with
  | Except.ok (s1, _) => Except.ok s1
  | Except.error e => Except.error e

def runSteps : ℕ → GenState ℕ → Except GenErr (GenState ℕ)
  | 0, s => Except.ok s
  | n + 1, s =>
    match stepState s with
    | Except.ok s1 => runSteps n s1
    | Except.error e => Except.error e

/-- The generator state after the four batch fetches of one declared pass. -/
def c1AfterPass : GenState ℕ :=
  ((runSteps 4 c1State).toOption).getD c1State

/-- The first image of a fifth fetch after the full pass (`none` if the
fetch raises or takes the autoencoder branch). -/
def fifthBatchFirstImage : Option ℕ :=
  match getItem id id id id c1AfterPass 0 with
  | Except.ok (_, Sum.inl (bx, _)) => some (bx.headD 0)
  | _ => none

/-!
## Theorems settling the claims (with their supporting lemmas and witnesses)
-/

theorem flatMap_replicate_length {β : Type} (k : ℕ) (l : List β) :
    (l.flatMap fun x => List.replicate k x).length = k * l.length := by
  induction l with
  | nil => simp
  | cons x xs ih =>
    simp [List.flatMap_cons, ih, Nat.mul_succ, Nat.add_comm]

theorem flatMap_replicate_getElem {β : Type} (k : ℕ) (l : List β) :
    ∀ i : ℕ, i < k * l.length →
      (l.flatMap fun x => List.replicate k x)[i]? = l[i / k]? := by
  induction l with
  | nil => intro i h; simp at h
  | cons x xs ih =>
    intro i h
    have hk : 0 < k := by
      rcases Nat.eq_zero_or_pos k with h0 | h0
      · subst h0; simp at h
      · exact h0
    rw [List.flatMap_cons]
    by_cases hi : i < k
    · rw [List.getElem?_append, if_pos (by simp only [List.length_replicate]; exact hi)]
      have hz : i / k = 0 := Nat.div_eq_of_lt hi
      simp [hz, List.getElem?_replicate, hi]
    · push_neg at hi
      obtain ⟨m, rfl⟩ : ∃ m, i = m + k := ⟨i - k, (Nat.sub_add_cancel hi).symm⟩
      rw [List.getElem?_append_right (by simp only [List.length_replicate]; omega)]
      have hlen : (List.replicate k x).length = k := by simp
      have hm : m < k * xs.length := by
        have := h
        rw [List.length_cons, Nat.mul_succ] at this
        omega
      have hdiv : (m + k) / k = m / k + 1 := by
        rw [Nat.add_div_right m hk]
      rw [hlen, Nat.add_sub_cancel, ih m hm, hdiv]
      simp

/-- C6: resizing a square image to its own size is the identity; resizing to
`k` times the source size produces a block-constant image in which pixel
`(i, j)` of the output equals source pixel `(i / k, j / k)` (every `k × k`
block equals one source pixel); resizing to a target that is not an integer
multiple of the source size fails with the configuration (assertion) error. -/
theorem power_resize_spec :
    (∀ (α : Type) (img : List (List α)), power_resize img img.length = Except.ok img) ∧
    (∀ (α : Type) (img : List (List α)) (k : ℕ), 0 < img.length →
      (∀ r ∈ img, r.length = img.length) →
      ∃ out, power_resize img (k * img.length) = Except.ok out ∧
        out.length = k * img.length ∧
        ∀ i j, i < k * img.length → j < k * img.length →
          pixel? out i j = pixel? img (i / k) (j / k)) ∧
    (∀ (α : Type) (img : List (List α)) (newsize : ℕ), 0 < img.length →
      ¬ img.length ∣ newsize →
      power_resize img newsize =
        Except.error "AssertionError: New image must be ^2 larger than original image") := by
  refine ⟨?_, ?_, ?_⟩
  · intro α img
    simp [power_resize]
  · intro α img k hpos hsq
    by_cases hk1 : k = 1
    · subst hk1
      refine ⟨img, by simp [power_resize], by simp, ?_⟩
      intro i j hi hj
      simp [Nat.div_one]
    · have hne : k * img.length ≠ img.length := by
        intro hEq
        have h' : k * img.length = 1 * img.length := by simpa using hEq
        exact hk1 (Nat.eq_of_mul_eq_mul_right hpos h')
      have hmod : k * img.length % img.length = 0 := by
        simp [Nat.mul_mod_left]
      have hkN : k * img.length / img.length = k := Nat.mul_div_cancel _ hpos
      refine ⟨(img.flatMap fun r => List.replicate k r).map
          (fun r => r.flatMap fun x => List.replicate k x), ?_, ?_, ?_⟩
      · rw [power_resize]
        rw [if_neg (fun h => hne h.symm), if_neg (by omega), if_pos hmod, hkN]
      · rw [List.length_map, flatMap_replicate_length]
      · intro i j hi hj
        unfold pixel?
        rw [List.getElem?_map, flatMap_replicate_getElem k img i hi]
        have hik : i / k < img.length := by
          have hk0 : 0 < k := by
            rcases Nat.eq_zero_or_pos k with h0 | h0
            · subst h0; omega
            · exact h0
          exact Nat.div_lt_of_lt_mul (by omega)
        obtain ⟨row, hrow⟩ : ∃ row, img[i / k]? = some row :=
          ⟨img[i / k], List.getElem?_eq_getElem hik⟩
        rw [hrow]
        simp only [Option.map_some', Option.some_bind]
        have hrlen : row.length = img.length := by
          exact hsq row (List.getElem?_mem hrow)
        rw [flatMap_replicate_getElem k row j (by rw [hrlen]; omega)]
  · intro α img newsize hpos hdvd
    have h1 : img.length ≠ newsize := by
      intro h; exact hdvd (h ▸ dvd_refl _)
    have h2 : newsize % img.length ≠ 0 := by
      intro h; exact hdvd (Nat.dvd_of_mod_eq_zero h)
    rw [power_resize, if_neg h1, if_neg (by omega), if_neg h2]

theorem power_resize_spec_witness :
    power_resize ([[3, 5], [7, 9]] : List (List ℕ)) 2 = Except.ok [[3, 5], [7, 9]] ∧
    (∃ out, power_resize ([[3, 5], [7, 9]] : List (List ℕ)) (2 * 2) = Except.ok out ∧
      out.length = 2 * 2 ∧
      ∀ i j, i < 2 * 2 → j < 2 * 2 →
        pixel? out i j = pixel? [[3, 5], [7, 9]] (i / 2) (j / 2)) ∧
    power_resize ([[3, 5], [7, 9]] : List (List ℕ)) 3 =
      Except.error "AssertionError: New image must be ^2 larger than original image" := by
  refine ⟨power_resize_spec.1 ℕ [[3, 5], [7, 9]], ?_, ?_⟩
  · exact power_resize_spec.2.1 ℕ [[3, 5], [7, 9]] 2 (by decide) (by decide)
  · exact power_resize_spec.2.2 ℕ [[3, 5], [7, 9]] 3 (by decide) (by decide)

theorem flipImage_flipImage {α : Type} (axis1 : Bool) (img : List (List α)) :
    flipImage axis1 (flipImage axis1 img) = img := by
  cases axis1 <;> simp [flipImage, List.map_map, Function.comp_def]

theorem applyFlips_length {α : Type} (axis1 : Bool) (orig : List (List (List α))) :
    ∀ (perm : List ℕ) (b : List (List (List α))),
      (applyFlips axis1 orig perm b).length = b.length := by
  intro perm
  induction perm with
  | nil => intro b; rfl
  | cons p rest ih =>
    intro b
    rw [applyFlips]
    cases horig : orig[p]? with
    | none => simpa using ih b
    | some img =>
      have := ih (b.set p (flipImage axis1 img))
      simpa using this

theorem applyFlips_getElem {α : Type} (axis1 : Bool) (orig : List (List (List α))) :
    ∀ (perm : List ℕ) (b : List (List (List α))), b.length = orig.length →
      ∀ j, (applyFlips axis1 orig perm b)[j]? =
        if j ∈ perm then (orig[j]?).map (flipImage axis1) else b[j]? := by
  intro perm
  induction perm with
  | nil => intro b _ j; simp [applyFlips]
  | cons p rest ih =>
    intro b hb j
    rw [applyFlips]
    cases horig : orig[p]? with
    | none =>
      rw [ih b hb j]
      by_cases hjr : j ∈ rest
      · simp [hjr]
      · by_cases hjp : j = p
        · subst hjp
          have hge : orig.length ≤ j := by
            by_contra hlt
            rw [List.getElem?_eq_getElem (by omega)] at horig
            exact Option.noConfusion horig
          have hbnone : b[j]? = none := by
            apply List.getElem?_eq_none
            omega
          simp [hjr, horig, hbnone]
        · simp [hjr, hjp]
    | some img =>
      have hset : (b.set p (flipImage axis1 img)).length = orig.length := by
        simpa using hb
      rw [ih _ hset j]
      by_cases hjr : j ∈ rest
      · simp [hjr]
      · by_cases hjp : j = p
        · subst hjp
          have hjlt : j < b.length := by
            rw [hb]
            by_contra hge
            rw [List.getElem?_eq_none (by omega)] at horig
            exact Option.noConfusion horig
          rw [List.getElem?_set_eq_of_lt _ hjlt, if_neg hjr,
            if_pos (List.mem_cons_self j rest), horig]
          rfl
        · rw [List.getElem?_set_ne (fun h => hjp h.symm), if_neg hjr,
            if_neg (by simp [hjp, hjr])]

theorem flip_getElem {α : Type} (axis1 : Bool) (perm : List ℕ)
    (batch : List (List (List α))) (hperm : perm.Perm (List.range batch.length)) :
    ∀ j : ℕ, (flip axis1 perm batch)[j]? = Option.map (@flipImage α axis1) batch[j]? := by
  intro j
  rw [flip, applyFlips_getElem axis1 batch perm batch rfl j]
  by_cases hj : j < batch.length
  · rw [if_pos (hperm.mem_iff.mpr (List.mem_range.mpr hj))]
  · have hnone : batch[j]? = none := by
      apply List.getElem?_eq_none
      omega
    rw [hnone]
    by_cases hmem : j ∈ perm
    · simp
    · simp [hmem]

/-- C8: applying the flip augmentation twice in succession along the same
axis restores the original batch, for every batch, both axes, and all
without-replacement index draws of size `batch_size` (i.e. every pair of
permutations of `range(batch_size)`), because every image in the batch is
flipped by each application and flipping an image along an axis is
involutive. -/
theorem flip_flip_eq {α : Type} (axis1 : Bool) (batch : List (List (List α)))
    (perm1 perm2 : List ℕ) (h1 : perm1.Perm (List.range batch.length))
    (h2 : perm2.Perm (List.range batch.length)) :
    flip axis1 perm2 (flip axis1 perm1 batch) = batch := by
  have hlen : (flip axis1 perm1 batch).length = batch.length := by
    rw [flip, applyFlips_length]
  apply List.ext_getElem?
  intro j
  rw [flip_getElem axis1 perm2 (flip axis1 perm1 batch) (hlen ▸ h2) j,
    flip_getElem axis1 perm1 batch h1 j]
  cases batch[j]? with
  | none => rfl
  | some img => simp [flipImage_flipImage]

theorem flip_flip_eq_witness :
    flip true [0, 1] (flip true [1, 0] [[[1, 2], [3, 4]], [[5, 6], [7, 8]]]) =
      ([[[1, 2], [3, 4]], [[5, 6], [7, 8]]] : List (List (List ℕ))) :=
  flip_flip_eq true [[[1, 2], [3, 4]], [[5, 6], [7, 8]]] [1, 0] [0, 1]
    (by decide) (by decide)

/-- C4 counterexample: the claim says a mask-selected pixel is replaced by a
level value drawn uniformly from the batch's level values.  For the batch
`[[[0, 1], [2, 0]]]` (levels `{0, 1, 2}`, `num_uniques = 3`) with the mask
selecting pixel `(0, 0, 0)`, the level value `1` can never be produced: the
code writes `randint(0, 2) * 2 ∈ {0, 2}`, not a uniform draw from the level
values.  The single-valued-skip half of the claim does hold (see the amended
theorem). -/
theorem speckle_noise_claim_counterexample :
    (1 : ℕ) ∈ ([[[0, 1], [2, 0]]] : List (List (List ℕ))).flatten.flatten.dedup ∧
    ¬ ∃ randArr : ℕ → ℕ → ℕ → ℕ,
        (∀ b i j : ℕ, randArr b i j < distinctCount [[[0, 1], [2, 0]]] - 1) ∧
        ∃ out, speckle_noise (fun b i j => b == 0 && i == 0 && j == 0) randArr
            [[[0, 1], [2, 0]]] "elementwise" none true = Except.ok out ∧
          pixel3? out 0 0 0 = some 1 := by
  refine ⟨by decide, ?_⟩
  rintro ⟨f, hf, out, hout, hpix⟩
  have hred : speckle_noise (fun b i j => b == 0 && i == 0 && j == 0) f
      [[[0, 1], [2, 0]]] "elementwise" none true =
      Except.ok [[[f 0 0 0 * 2, 1], [2, 0]]] := by
    rfl
  rw [hred] at hout
  injection hout with hout
  subst hout
  have hval : pixel3? [[[f 0 0 0 * 2, 1], [2, 0]]] 0 0 0 = some (f 0 0 0 * 2) := rfl
  rw [hval] at hpix
  injection hpix with hpix
  omega

/-- C4 (amended): with a multi-valued batch, `speckle_noise` in its default
configuration replaces each mask-selected pixel with
`randArr b i j * (num_uniques - 1)` where `randArr b i j` is drawn uniformly
from `{0, ..., num_uniques - 2}` — i.e. from the scaled set
`{0, n-1, 2(n-1), ...}`, which need not coincide with the batch's level
values, and the draw is not guaranteed to differ from the original pixel
value — leaving unmasked pixels unchanged; when the batch is single-valued
the batch is returned entirely unchanged rather than raising an error. -/
theorem speckle_noise_amended (mask : ℕ → ℕ → ℕ → Bool) (randArr : ℕ → ℕ → ℕ → ℕ)
    (batch : List (List (List ℕ))) :
    (distinctCount batch > 1 →
      ∃ out, speckle_noise mask randArr batch "elementwise" none true = Except.ok out ∧
        ∀ b i j px, pixel3? batch b i j = some px →
          pixel3? out b i j =
            some (if mask b i j then randArr b i j * (distinctCount batch - 1) else px)) ∧
    (distinctCount batch ≤ 1 →
      speckle_noise mask randArr batch "elementwise" none true = Except.ok batch) := by
  constructor
  · intro hn
    refine ⟨batch.mapIdx fun b img => img.mapIdx fun i row => row.mapIdx fun j px =>
        if mask b i j then randArr b i j * (distinctCount batch - 1) else px, ?_, ?_⟩
    · rw [speckle_noise, if_pos (Or.inl rfl)]
      simp only [gt_iff_lt]
      rw [if_pos hn]
      simp
    · intro b i j px hpx
      unfold pixel3? at hpx ⊢
      simp only [List.getElem?_mapIdx]
      cases hb : batch[b]? with
      | none => simp [hb] at hpx
      | some img =>
        rw [hb] at hpx
        simp only [Option.map_some', Option.some_bind, List.getElem?_mapIdx] at hpx ⊢
        cases hi : img[i]? with
        | none => simp [hi] at hpx
        | some row =>
          rw [hi] at hpx
          simp only [Option.map_some', Option.some_bind, List.getElem?_mapIdx] at hpx ⊢
          cases hj : row[j]? with
          | none => simp [hj] at hpx
          | some v =>
            rw [hj] at hpx
            simp only [Option.map_some', Option.some_bind] at hpx ⊢
            injection hpx with hpx
            subst hpx
            rfl
  · intro hn
    rw [speckle_noise, if_pos (Or.inl rfl)]
    simp only [gt_iff_lt]
    rw [if_neg (by omega)]

theorem speckle_noise_amended_witness :
    (distinctCount [[[0, 1], [2, 0]]] > 1 ∧
      ∃ out, speckle_noise (fun b i j => b == 0 && i == 0 && j == 0) (fun _ _ _ => 1)
          [[[0, 1], [2, 0]]] "elementwise" none true = Except.ok out ∧
        ∀ b i j px, pixel3? [[[0, 1], [2, 0]]] b i j = some px →
          pixel3? out b i j =
            some (if (fun b i j => b == 0 && i == 0 && j == 0) b i j then
              1 * (distinctCount [[[0, 1], [2, 0]]] - 1) else px)) ∧
    (distinctCount [[[7, 7], [7, 7]]] ≤ 1 ∧
      speckle_noise (fun _ _ _ => true) (fun _ _ _ => 0) [[[7, 7], [7, 7]]]
        "elementwise" none true = Except.ok [[[7, 7], [7, 7]]]) := by
  constructor
  · exact ⟨by decide,
      (speckle_noise_amended (fun b i j => b == 0 && i == 0 && j == 0)
        (fun _ _ _ => 1) [[[0, 1], [2, 0]]]).1 (by decide)⟩
  · exact ⟨by decide,
      (speckle_noise_amended (fun _ _ _ => true) (fun _ _ _ => 0)
        [[[7, 7], [7, 7]]]).2 (by decide)⟩

/-- C2 (code bug): on the three-level image `[[0, 2, 0], [1, 1, 1], [0, 1, 0]]`
(counts: level 0 → 4, level 1 → 4, level 2 → 1; least-common level 2 at
coordinate `(0, 1)`; `other_vals = [0, 1]`), every admissible weighted draw
leaves the least-common pixel `(0, 1)` holding level 2 — the write goes to
diagonal position `(0, 0)` instead — so the output still has 3 distinct
levels, contradicting the claim that the output has exactly the 2 most
frequent input levels (and the function's own docstring). -/
theorem patch_binarisation_bug :
    otherVals [[0, 2, 0], [1, 1, 1], [0, 1, 0]] = [0, 1] ∧
    ∀ draw : ℕ → ℕ, (∀ k, draw k ∈ otherVals [[0, 2, 0], [1, 1, 1], [0, 1, 0]]) →
      pixel? (patch_binarisation_image draw [[0, 2, 0], [1, 1, 1], [0, 1, 0]]) 0 1 =
        some 2 ∧
      (patch_binarisation_image draw [[0, 2, 0], [1, 1, 1], [0, 1, 0]]).flatten.dedup.length
        = 3 := by
  refine ⟨by decide, ?_⟩
  intro draw h
  have hred : patch_binarisation_image draw [[0, 2, 0], [1, 1, 1], [0, 1, 0]] =
      [[draw 0, 2, 0], [1, 1, 1], [0, 1, 0]] := rfl
  have h0 := h 0
  rw [show otherVals [[0, 2, 0], [1, 1, 1], [0, 1, 0]] = [0, 1] from by decide] at h0
  simp only [List.mem_cons, List.not_mem_nil, or_false] at h0
  constructor
  · rw [hred]; rfl
  · rw [hred]
    rcases h0 with h0 | h0
    · rw [h0]; decide
    · rw [h0]; decide

theorem patch_binarisation_bug_witness :
    pixel? (patch_binarisation_image (fun _ => 0) [[0, 2, 0], [1, 1, 1], [0, 1, 0]]) 0 1 =
      some 2 ∧
    (patch_binarisation_image (fun _ => 0)
      [[0, 2, 0], [1, 1, 1], [0, 1, 0]]).flatten.dedup.length = 3 :=
  patch_binarisation_bug.2 (fun _ => 0)
    (fun k => by
      show (0 : ℕ) ∈ otherVals [[0, 2, 0], [1, 1, 1], [0, 1, 0]]
      decide)

/-- C3: for every three-level image whose dominant (mode) value is not the
liquid level and whose particle-pixel count is positive, the category
returned by `calculate_stats` is determined solely by the ratio
`R = euler_number / particle-pixel-count` through the claim's fixed bands. -/
theorem calculate_stats_bands (img : List (List ℕ)) (res : ℕ)
    (_h3 : ∀ v ∈ img.flatten, v ∈ ([0, 1, 2] : List ℕ))
    (hmode : modeVal img ≠ 1) (_hnano : 0 < img.flatten.count 2) :
    (calculate_stats img res).2 = claimBands (ratioR img) := by
  show (if modeVal img = 1 then _ else _) = _
  rw [if_neg hmode]
  rfl

theorem calculate_stats_bands_witness :
    (∀ v ∈ ([[0, 0, 2], [0, 0, 2], [0, 1, 2]] : List (List ℕ)).flatten,
      v ∈ ([0, 1, 2] : List ℕ)) ∧
    modeVal [[0, 0, 2], [0, 0, 2], [0, 1, 2]] ≠ 1 ∧
    0 < ([[0, 0, 2], [0, 0, 2], [0, 1, 2]] : List (List ℕ)).flatten.count 2 ∧
    (calculate_stats [[0, 0, 2], [0, 0, 2], [0, 1, 2]] 3).2 =
      claimBands (ratioR [[0, 0, 2], [0, 0, 2], [0, 1, 2]]) :=
  ⟨by decide, by decide, by decide,
    calculate_stats_bands [[0, 0, 2], [0, 0, 2], [0, 1, 2]] 3
      (by decide) (by decide) (by decide)⟩

/-- C7: for every image whose dominant (mode) value is the liquid level, the
category is `"hole"` exactly when the substrate-pixel fraction is at least
`0.02` of `image_res ** 2`, and `"liquid"` otherwise. -/
theorem calculate_stats_liquid (img : List (List ℕ)) (res : ℕ) (_hres : 0 < res)
    (hmode : modeVal img = 1) :
    (calculate_stats img res).2 =
      if (1 : ℚ) / 50 ≤ (img.flatten.count 0 : ℚ) / ((res : ℚ) ^ 2) then "hole"
      else "liquid" := by
  show (if modeVal img = 1 then _ else _) = _
  rw [if_pos hmode]

set_option maxRecDepth 40000 in
/-- C7 witness: a 10×10 all-liquid image with 3 substrate pixels (3%)
classifies as `"hole"`, and with 1 substrate pixel (1%) as `"liquid"`. -/
theorem calculate_stats_liquid_witness :
    modeVal ([0, 0, 0, 1, 1, 1, 1, 1, 1, 1] :: List.replicate 9 (List.replicate 10 1)) = 1 ∧
    (calculate_stats ([0, 0, 0, 1, 1, 1, 1, 1, 1, 1] :: List.replicate 9 (List.replicate 10 1))
      10).2 = "hole" ∧
    modeVal ([0, 1, 1, 1, 1, 1, 1, 1, 1, 1] :: List.replicate 9 (List.replicate 10 1)) = 1 ∧
    (calculate_stats ([0, 1, 1, 1, 1, 1, 1, 1, 1, 1] :: List.replicate 9 (List.replicate 10 1))
      10).2 = "liquid" := by
  refine ⟨by decide, ?_, by decide, ?_⟩
  · rw [calculate_stats_liquid _ 10 (by decide) (by decide)]
    rw [show (([0, 0, 0, 1, 1, 1, 1, 1, 1, 1] ::
      List.replicate 9 (List.replicate 10 1)).flatten.count 0) = 3 from by decide]
    norm_num
  · rw [calculate_stats_liquid _ 10 (by decide) (by decide)]
    rw [show (([0, 1, 1, 1, 1, 1, 1, 1, 1, 1] ::
      List.replicate 9 (List.replicate 10 1)).flatten.count 0) = 1 from by decide]
    norm_num

theorem pixel?_mapIdx2 {a b : Type} (m : List (List a)) (G : ℕ → ℕ → a → b) (i j : ℕ) :
    pixel? (m.mapIdx fun r row => row.mapIdx fun c v => G r c v) i j =
      (pixel? m i j).map (G i j) := by
  unfold pixel?
  rw [List.getElem?_mapIdx]
  cases hm : m[i]? with
  | none => rfl
  | some row => simp [List.getElem?_mapIdx]

theorem mem_flatten_pixel? {a : Type} [DecidableEq a] (m : List (List a)) (v : a)
    (hv : v ∈ m.flatten) : ∃ i j, pixel? m i j = some v := by
  rcases List.mem_flatten.mp hv with ⟨row, hrow, hvrow⟩
  rcases List.mem_iff_getElem?.mp hrow with ⟨i, hi⟩
  rcases List.mem_iff_getElem?.mp hvrow with ⟨j, hj⟩
  exact ⟨i, j, by unfold pixel?; rw [hi]; simpa using hj⟩

theorem pixel?_iterIds_some (m : List (List ℕ)) (i j v t : ℕ)
    (hp : pixel? m i j = some v) (hv : v ≠ 0) :
    ∃ c, pixel? (iterIds m t) i j = some (some c) := by
  cases t with
  | zero =>
    unfold iterIds initIds
    rw [pixel?_mapIdx2, hp]
    simp only [Option.map_some']
    rw [if_neg hv]
    exact ⟨_, rfl⟩
  | succ t =>
    unfold iterIds stepIds
    rw [pixel?_mapIdx2, hp]
    simp only [Option.map_some']
    rw [if_neg hv]
    exact ⟨_, rfl⟩

theorem componentCount_pos {m : List (List ℕ)} {i j v : ℕ}
    (hp : pixel? m i j = some v) (hv : v ≠ 0) : 0 < componentCount m := by
  obtain ⟨c, hc⟩ := pixel?_iterIds_some m i j v m.flatten.length hp hv
  unfold pixel? at hc
  cases hg : (iterIds m m.flatten.length)[i]? with
  | none => rw [hg] at hc; exact Option.noConfusion hc
  | some grow =>
    rw [hg] at hc
    simp only [Option.some_bind] at hc
    have h1 : (some c) ∈ (iterIds m m.flatten.length).flatten :=
      List.mem_flatten.mpr ⟨grow, List.getElem?_mem hg, List.getElem?_mem hc⟩
    have h2 : c ∈ (iterIds m m.flatten.length).flatten.filterMap id :=
      List.mem_filterMap.mpr ⟨some c, h1, rfl⟩
    have h3 : c ∈ ((iterIds m m.flatten.length).flatten.filterMap id).dedup :=
      List.mem_dedup.mpr h2
    unfold componentCount
    exact List.length_pos.mpr (List.ne_nil_of_mem h3)

theorem mem_insertSorted (x y : ℕ) (l : List ℕ) :
    y ∈ insertSorted x l ↔ y = x ∨ y ∈ l := by
  induction l with
  | nil => simp [insertSorted]
  | cons z zs ih =>
    rw [insertSorted]
    by_cases h : x ≤ z
    · rw [if_pos h]
      simp [List.mem_cons]
    · rw [if_neg h]
      simp only [List.mem_cons, ih]
      tauto

theorem mem_sortAsc (y : ℕ) (l : List ℕ) : y ∈ sortAsc l ↔ y ∈ l := by
  unfold sortAsc
  induction l with
  | nil => simp
  | cons z zs ih =>
    simp only [List.foldr_cons, mem_insertSorted, ih, List.mem_cons]

theorem firstRegionMask_eq_none {m : List (List ℕ)} (h : componentCount m = 0) :
    firstRegionMask m = none := by
  unfold firstRegionMask
  cases hpv : positiveVals m with
  | nil => rfl
  | cons v rest =>
    exfalso
    have hvmem : v ∈ positiveVals m := by rw [hpv]; exact List.mem_cons_self v rest
    unfold positiveVals at hvmem
    rw [mem_sortAsc] at hvmem
    have hvf : v ∈ m.flatten.filter fun v => v != 0 := List.mem_dedup.mp hvmem
    have hvm : v ∈ m.flatten := List.mem_of_mem_filter hvf
    have hvne : v ≠ 0 := by
      have := List.of_mem_filter hvf
      simpa using this
    obtain ⟨i, j, hij⟩ := mem_flatten_pixel? m v hvm
    have := componentCount_pos hij hvne
    omega

/-- C5: `calculate_normalised_stats` fails with the assertion (precondition)
error on every image that does not have exactly two distinct values; and for
every binary image whose closed complement has zero connected components
(`H1 = 0`, i.e. `label(img_close_inv)` finds no region), it fails with the
`regionprops(...)[0]` index error - a degenerate-input failure - rather than
returning a value (in particular never an infinite `SIE`). -/
theorem calculate_normalised_stats_errors :
    (∀ img : List (List ℕ), img.flatten.dedup.length ≠ 2 →
      calculate_normalised_stats img = Except.error StatErr.assertionError) ∧
    (∀ img : List (List ℕ), img.flatten.dedup.length = 2 →
      componentCount (invOf (closing3 img)) = 0 →
      calculate_normalised_stats img = Except.error StatErr.indexError) := by
  constructor
  · intro img h
    unfold calculate_normalised_stats
    rw [if_pos h]
  · intro img h2 hH1
    unfold calculate_normalised_stats
    rw [if_neg (fun hne => hne h2)]
    simp only [firstRegionMask_eq_none hH1]

theorem calculate_normalised_stats_errors_witness :
    (([[0, 1, 2]] : List (List ℕ)).flatten.dedup.length ≠ 2 ∧
      calculate_normalised_stats [[0, 1, 2]] = Except.error StatErr.assertionError) ∧
    (([[1, 1, 1], [1, 0, 1], [1, 1, 1]] : List (List ℕ)).flatten.dedup.length = 2 ∧
      componentCount (invOf (closing3 [[1, 1, 1], [1, 0, 1], [1, 1, 1]])) = 0 ∧
      calculate_normalised_stats [[1, 1, 1], [1, 0, 1], [1, 1, 1]] =
        Except.error StatErr.indexError) :=
  ⟨⟨by decide, calculate_normalised_stats_errors.1 [[0, 1, 2]] (by decide)⟩,
   ⟨by decide, by decide,
    calculate_normalised_stats_errors.2 [[1, 1, 1], [1, 0, 1], [1, 1, 1]]
      (by decide) (by decide)⟩⟩

/-- C10: `__getitem__` ignores its `idx` argument entirely: from identical
generator state (cursor, counters, buffers, and the same transform functions
holding the random state), any two index arguments produce identical results
- which records are delivered depends only on the internal cursor state. -/
theorem getItem_idx_irrelevant {α : Type} (resizeFn : α → α)
    (augmentFn patchFn noiseFn : List α → List α) (s : GenState α) (i1 i2 : ℕ) :
    getItem resizeFn augmentFn patchFn noiseFn s i1 =
      getItem resizeFn augmentFn patchFn noiseFn s i2 := rfl

/-- C9: when the accumulator flag `is_validation_set` is not set (as at the
method's only call site, the constructor), a successful `_get_class_weights`
reads exactly `min(len()*batch_size, 50000)` records in training mode and
exactly `len()*batch_size` records otherwise (never more than the directory
holds), stores the balanced inverse-frequency weights computed from the
scanned label indices, and leaves the cursor (file iterator position and
batch counter) reset to its start. -/
theorem getClassWeights_spec {α : Type} (s s' : GenState α) (cnt : ℕ)
    (hval : s.isValidationSet = false)
    (hok : getClassWeights s = Except.ok (s', cnt)) :
    (s.isTrainingSet = true → cnt = min (genLen s * s.batchSize) 50000) ∧
    (s.isTrainingSet = false → cnt = genLen s * s.batchSize) ∧
    cnt ≤ s.files.length ∧
    s'.filePos = 0 ∧ s'.batchesCounter = 0 ∧
    ∃ inds, (s.files.take cnt).mapM (fun r => catIndex? s.catList r.category) = some inds ∧
      s'.classWeightsDict = some (balancedWeights s.catList.length inds) := by
  unfold getClassWeights at hok
  simp only [resetFileIterator, genLen, hval, Bool.false_eq_true, if_false] at hok
  simp only [genLen]
  set L := if s.isTrainingSet = true then
      min (s.files.length / s.batchSize * s.batchSize) 50000
    else s.files.length / s.batchSize * s.batchSize with hL
  by_cases hle : L ≤ s.files.length
  · rw [if_pos hle] at hok
    split at hok
    · exact Except.noConfusion hok
    · next inds hmm =>
      split at hok
      · next hall =>
        injection hok with h1
        injection h1 with h1 h2
        subst h1
        subst h2
        refine ⟨?_, ?_, hle, rfl, rfl, inds, hmm, rfl⟩
        · intro ht
          rw [hL, if_pos ht]
        · intro ht
          rw [hL, if_neg (by rw [ht]; exact Bool.false_ne_true)]
      · exact Except.noConfusion hok
  · rw [if_neg hle] at hok
    exact Except.noConfusion hok

theorem getClassWeights_spec_witness :
    (cwState.isTrainingSet = false → 4 = genLen cwState * cwState.batchSize) ∧
    (4 : ℕ) ≤ cwState.files.length ∧
    cwStateAfter.filePos = 0 ∧ cwStateAfter.batchesCounter = 0 ∧
    ∃ inds, (cwState.files.take 4).mapM (fun r => catIndex? cwState.catList r.category) =
        some inds ∧
      cwStateAfter.classWeightsDict = some (balancedWeights cwState.catList.length inds) := by
  have h := getClassWeights_spec cwState cwStateAfter 4 rfl (by with_unfolding_all rfl)
  exact ⟨h.2.1, h.2.2.1, h.2.2.2.1, h.2.2.2.2.1, h.2.2.2.2.2⟩

set_option maxRecDepth 200000 in
/-- C1 (code bug): with 256 valid records and batch_size 64 in classifier
mode, `length()` is 4 and four validation fetches fill `x_true` with every
record image exactly once (rows `r` hold image `r + 1`) and rewind the
cursor, and a fifth fetch re-wraps to record 0 rather than raising — but
`y_true` rows 0-63 end up holding the FOURTH batch's labels `[0, 1]`
instead of batch 0's labels `[1, 0]` (record 0's category is `"a"`),
because `__getitem__` writes `y_true` a second time at the slice of the
post-increment (post-reset) batch counter; so the label buffer is not
written exactly once per row per pass as the claim requires. -/
theorem validation_pass_bug :
    genLen c1State = 4 ∧
    (runSteps 4 c1State).toOption.isSome = true ∧
    c1AfterPass.xTrue = (List.range 256).map (fun r => r + 1) ∧
    c1AfterPass.yTrue =
      List.replicate 64 [0, 1] ++ (List.replicate 128 [1, 0] ++ List.replicate 64 [0, 1]) ∧
    (c1Files.head?).map GenRecord.category = some "a" ∧
    oneHot 2 (["a", "b"].indexOf "a") = [1, 0] ∧
    c1AfterPass.filePos = 0 ∧ c1AfterPass.batchesCounter = 0 ∧
    fifthBatchFirstImage = some 1 := by
  decide

end PyRabani
